import Mathlib

/-!
Shallow embedding of the goscript VM core: channels and the selector
(src/vm/src/channel.rs), the up-value closing prologue of RETURN
(src/vm/src/vm.rs), arrays and slices (src/vm/src/objects.rs), the
TYPE_ASSERT opcode and string/byte-slice CAST (src/vm/src/vm.rs), together
with theorems settling the specification claims against these definitions.
Values stored by the VM are modelled by a type parameter `V`; machine
`usize`/`isize` arithmetic is modelled on `Nat`/`Int` with explicit
wrapping where the source can wrap.
-/

namespace Goscript

/-! ### Channels (src/vm/src/channel.rs) -/

/-- Type `RendezvousState` from channel.rs: the four states of a capacity-0
channel. -/
inductive RendezvousState (V : Type) where
  | NotReady
  | Ready
  | InPlace (v : V)
  | Closed
  deriving DecidableEq, Repr

/-- Type `async_channel::TrySendError`: the error cases of a non-blocking send. -/
inductive TrySendError (V : Type) where
  | Full (v : V)
  | Closed (v : V)
  deriving DecidableEq, Repr

/-- Type `async_channel::TryRecvError`: the error cases of a non-blocking
receive. -/
inductive TryRecvError where
  | Empty
  | Closed
  deriving DecidableEq, Repr

/-- Modelled from the spec: the bounded channel variant is backed by the
external `async_channel` crate, whose sources are not part of this
repository; per the spec it is "a bounded FIFO of the given capacity" whose
`try_send`/`try_recv` "are non-blocking and return one of
{delivered, would-block, closed}". -/
structure BoundedChan (V : Type) where
  queue : List V
  cap : Nat
  closed : Bool
  deriving DecidableEq, Repr

/-- Modelled from the spec: non-blocking send on the bounded FIFO — closed
reports closed, a full queue would block, otherwise the value is enqueued at
the back. -/
def BoundedChan.try_send {V : Type} (c : BoundedChan V) (v : V) :
    Except (TrySendError V) Unit × BoundedChan V :=
  if c.closed then (.error (.Closed v), c)
  else if c.queue.length ≥ c.cap then (.error (.Full v), c)
  else (.ok (), { c with queue := c.queue ++ [v] })

/-- Modelled from the spec: non-blocking receive on the bounded FIFO — a
buffered value is delivered front-first even after close, an empty open
queue would block, an empty closed queue reports closed. -/
def BoundedChan.try_recv {V : Type} (c : BoundedChan V) :
    Except TryRecvError V × BoundedChan V :=
  match c.queue with
  | v :: rest => (.ok v, { c with queue := rest })
  | [] => if c.closed then (.error .Closed, c) else (.error .Empty, c)

/-- The `Channel` enum from channel.rs: bounded or rendezvous. -/
inductive Channel (V : Type) where
  | Bounded (b : BoundedChan V)
  | Rendezvous (s : RendezvousState V)
  deriving DecidableEq, Repr

/-- Function `Channel::try_send` from channel.rs; the mutation of the shared state is
made explicit by returning the updated channel. -/
def Channel.try_send {V : Type} (ch : Channel V) (v : V) :
    Except (TrySendError V) Unit × Channel V :=
  match ch with
  | .Bounded b =>
      let (r, b') := b.try_send v
      (r, .Bounded b')
  | .Rendezvous s =>
      match s with
      | .NotReady => (.error (.Full v), .Rendezvous .NotReady)
      | .Ready => (.ok (), .Rendezvous (.InPlace v))
      | .InPlace w => (.error (.Full v), .Rendezvous (.InPlace w))
      | .Closed => (.error (.Closed v), .Rendezvous .Closed)

/-- Function `Channel::try_recv` from channel.rs; a receive on a `NotReady`
rendezvous channel registers the waiting receiver by moving to `Ready`. -/
def Channel.try_recv {V : Type} (ch : Channel V) :
    Except TryRecvError V × Channel V :=
  match ch with
  | .Bounded b =>
      let (r, b') := b.try_recv
      (r, .Bounded b')
  | .Rendezvous s =>
      match s with
      | .NotReady => (.error .Empty, .Rendezvous .Ready)
      | .Ready => (.error .Empty, .Rendezvous .Ready)
      | .InPlace v => (.ok v, .Rendezvous .NotReady)
      | .Closed => (.error .Closed, .Rendezvous .Closed)

/-- Outcome of one iteration of the cooperative polling loop in
`Channel::send`. -/
inductive SendStep where
  | done
  | yield
  | errClosed
  deriving DecidableEq, Repr

/-- One attempt of the awaiting `Channel::send` loop from channel.rs: `Ok`
completes, `Full` yields to the scheduler and retries on the next turn,
`Closed` returns the "channel closed!" runtime error. -/
def Channel.send_step {V : Type} (ch : Channel V) (v : V) :
    SendStep × Channel V :=
  match ch.try_send v with
  | (.ok (), ch') => (.done, ch')
  | (.error (.Full _), ch') => (.yield, ch')
  | (.error (.Closed _), ch') => (.errClosed, ch')

/-! ### Selector (src/vm/src/channel.rs, `Selector::select`) -/

/-- Type `SelectCommType` from channel.rs: a select case is a send of a value or
a receive (the receive's value type and store offset do not affect case
selection and are omitted). -/
inductive SelectCommType (V : Type) where
  | send (v : V)
  | recv
  deriving DecidableEq, Repr

/-- Type `SelectComm` from channel.rs; the shared channel is identified by an
index into the channel store (the Rust code holds a `GosValue` handle). -/
structure SelectComm (V : Type) where
  typ : SelectCommType V
  chan : Nat
  deriving DecidableEq, Repr

/-- Type `Selector` from channel.rs. `pseudo_rand` is threaded explicitly by
`Selector.select_pass`. -/
structure Selector (V : Type) where
  comms : List (SelectComm V)
  default_offset : Option Int
  deriving DecidableEq, Repr

/-- The channels shared between fibers, addressed by index. -/
def ChanStore (V : Type) : Type := List (Channel V)

/-- Result of one polling pass of `Selector::select`: a case won (with the
received value for receive cases), the default branch was taken, the fiber
yields and retries, or the runtime error is propagated. -/
inductive SelectResult (V : Type) where
  | caseWon (index : Nat) (v : Option V)
  | dflt
  | yield
  | err (msg : String)
  deriving DecidableEq, Repr

/-- Outcome of trying one select case: the pass returns `r`, or the case
would block and the rotation moves on. -/
inductive CaseOutcome (V : Type) where
  | ret (r : SelectResult V)
  | block
  deriving DecidableEq, Repr

/-- One arm of the `for` loop body of `Selector::select` at case `index`: a
successful `try_send` wins with no value, a successful `try_recv` wins with
the received value, a receive finding the channel closed wins with no
value, a send finding the channel closed propagates the "channel closed!"
error, and a would-block try blocks; the channel store is updated by the
try in every case. -/
def select_case_try {V : Type} (sel : Selector V) (index : Nat)
    (store : ChanStore V) : CaseOutcome V × ChanStore V :=
  match sel.comms.get? index with
  | none => (.ret (.err "index out of range"), store)
  | some entry =>
    match store.get? entry.chan with
    | none => (.ret (.err "expect GosValue::Channel"), store)
    | some ch =>
      match entry.typ with
      | .send val =>
        match ch.try_send val with
        | (.ok (), ch') =>
            (.ret (.caseWon index none), store.set entry.chan ch')
        | (.error (.Full _), ch') => (.block, store.set entry.chan ch')
        | (.error (.Closed _), ch') =>
            (.ret (.err "channel closed!"), store.set entry.chan ch')
      | .recv =>
        match ch.try_recv with
        | (.ok v, ch') =>
            (.ret (.caseWon index (some v)), store.set entry.chan ch')
        | (.error .Empty, ch') => (.block, store.set entry.chan ch')
        | (.error .Closed, ch') =>
            (.ret (.caseWon index none), store.set entry.chan ch')

/-- The `for i in 0..count` loop of `Selector::select`: step `i` tries case
`(i + rand_start) % count`; the first case that does not block decides the
result. After the loop, the default branch is taken when present, otherwise
the pass yields (`future::yield_now().await` and retry). -/
def Selector.select_loop {V : Type} (sel : Selector V) (rand_start : Nat) :
    Nat → ChanStore V → SelectResult V × ChanStore V
  | i, store =>
    if i < sel.comms.length then
      match select_case_try sel ((i + rand_start) % sel.comms.length) store with
      | (.ret res, store') => (res, store')
      | (.block, store') => sel.select_loop rand_start (i + 1) store'
    else
      match sel.default_offset with
      | some _ => (.dflt, store)
      | none => (.yield, store)
  termination_by i _ => sel.comms.length - i

/-- One call of `Selector::select` up to its first suspension point:
`rand_start` is read from the per-selector counter, the counter is
incremented, and one pass over the rotated case list is made (`.yield`
stands for the `future::yield_now().await` retry). -/
def Selector.select_pass {V : Type} (sel : Selector V) (pseudo_rand : Nat)
    (store : ChanStore V) : (SelectResult V × ChanStore V) × Nat :=
  (sel.select_loop pseudo_rand 0 store, pseudo_rand + 1)

/-- The rotation of case indices a selector call examines: positions
`rand_start % count, (1 + rand_start) % count, …`, one for each case. -/
def rotation (count rand_start : Nat) : List Nat :=
  (List.range count).map (fun i => (i + rand_start) % count)

/-- Reference scan following the amended claim's wording: the cases are
examined in the explicitly given rotation order; the first case whose
`try_send` or `try_recv` succeeds — or whose receive finds the channel
closed — wins and its index is reported with the received value for
successful receives; a send case finding its channel closed aborts with the
channel-closed error; when no case completes and a default case is present
the default branch is taken without yielding, and otherwise the pass
yields. Failed tries still update the channel store. -/
def Selector.select_scan {V : Type} (sel : Selector V) :
    List Nat → ChanStore V → SelectResult V × ChanStore V
  | [], store =>
    match sel.default_offset with
    | some _ => (.dflt, store)
    | none => (.yield, store)
  | index :: rest, store =>
    match select_case_try sel index store with
    | (.ret res, store') => (res, store')
    | (.block, store') => sel.select_scan rest store'

/-! ### Up-values and the RETURN prologue (src/vm/src/objects.rs,
src/vm/src/vm.rs) -/

/-- Type `ValueDesc` from objects.rs: descriptor of a still-open up-value — the
defining function, the local's index and value type, and the owning frame. -/
structure ValueDesc where
  func : Nat
  index : Int
  typ : Nat
  frame : Int
  deriving DecidableEq, Repr

/-- Type `UpValueState` from objects.rs: an up-value is `Open` while its parent
frame is alive and `Closed` over an owned value afterwards. -/
inductive UpValueState (V : Type) where
  | Open (d : ValueDesc)
  | Closed (v : V)
  deriving DecidableEq, Repr

/-- The strong `Rc<RefCell<UpValueState>>` cells, addressed by id; `none`
models a cell all strong references of which have been dropped, so that a
weak reference to it no longer upgrades. -/
def UvHeap (V : Type) : Type := Nat → Option (UpValueState V)

/-- Function `WeakUpValue::upgrade` from objects.rs: a weak reference (an id here)
upgrades exactly when the cell is still alive. -/
def upgrade {V : Type} (heap : UvHeap V) (w : Nat) : Option (UpValueState V) :=
  heap w

/-- Function `UpValue::close` from objects.rs guarded by the `weak.upgrade()` test of
the RETURN prologue in vm.rs: when the cell is still alive its state becomes
`Closed` over the given value, otherwise nothing happens. -/
def close_if_alive {V : Type} (heap : UvHeap V) (w : Nat) (val : V) : UvHeap V :=
  fun x =>
    if x = w then
      match heap w with
      | some _ => some (.Closed val)
      | none => none
    else heap x

/-- Type `Referers` from vm.rs: the value type of a local plus the weak
references to the up-values some closure created against it. -/
structure Referers where
  typ : Nat
  weaks : List Nat
  deriving DecidableEq, Repr

/-- Function `Stack::offset`: a stack base plus a signed instruction immediate. -/
def Stack.offset (base : Nat) (i : Int) : Nat := (base + i).toNat

/-- The up-value closing prologue of `Opcode::RETURN` (vm.rs lines
817–834): for every `referred_by` entry with a non-empty referrer list, the
current stack value of the local is read at `stack_base + index`, and every
weak up-value that still upgrades is closed over (a clone of) that value.
The operand stack is modelled as a total map from absolute index to value.
-/
def close_frame_upvalues {V : Type} (stack : Nat → V) (stack_base : Nat)
    (referred : List (Int × Referers)) (heap : UvHeap V) : UvHeap V :=
  referred.foldl
    (fun h entry =>
      if entry.2.weaks.length = 0 then h
      else
        entry.2.weaks.foldl
          (fun h' w => close_if_alive h' w (stack (Stack.offset stack_base entry.1)))
          h)
    heap

/-! ### Arrays and slices (src/vm/src/objects.rs) -/

/-- Type `ArrayObj<T>` from objects.rs: a fixed-length mutable sequence (the
interior `RefCell<Vec<T>>` is made explicit by state passing). -/
structure ArrayObj (V : Type) where
  vec : List V
  deriving DecidableEq, Repr

/-- Function `ArrayObj::len`. -/
def ArrayObj.len {V : Type} (a : ArrayObj V) : Nat := a.vec.length

/-- Function `ArrayObj::get`: an index at or beyond the array length is an
index-out-of-range runtime error. -/
def ArrayObj.get {V : Type} (a : ArrayObj V) (i : Nat) : Except String V :=
  if h : a.len ≤ i then .error s!"index {i} out of range"
  else .ok (a.vec.get ⟨i, by unfold ArrayObj.len at h; omega⟩)

/-- Function `ArrayObj::set`: bounds-checked store of `val` at index `i`; the
updated array is returned in place of the interior mutation. -/
def ArrayObj.set {V : Type} (a : ArrayObj V) (i : Nat) (val : V) :
    Except String (ArrayObj V) :=
  if a.len ≤ i then .error s!"index {i} out of range"
  else .ok ⟨a.vec.set i val⟩

/-- Type `SliceObj<T>` from objects.rs: a view (begin, end, cap_end) over a
backing array; the backing array is carried inline, so slices that share
state carry equal `array` components. -/
structure SliceObj (V : Type) where
  array : ArrayObj V
  begin : Nat
  «end» : Nat
  cap_end : Nat
  deriving DecidableEq, Repr

/-- Function `SliceObj::len`: `end - begin`. -/
def SliceObj.len {V : Type} (s : SliceObj V) : Nat := s.«end» - s.begin

/-- Function `SliceObj::cap`: `cap_end - begin`. -/
def SliceObj.cap {V : Type} (s : SliceObj V) : Nat := s.cap_end - s.begin

/-- Function `SliceObj::get`: delegates to the backing array at `begin + i`. -/
def SliceObj.get {V : Type} (s : SliceObj V) (i : Nat) : Except String V :=
  s.array.get (s.begin + i)

/-- Function `SliceObj::set`: delegates to the backing array at `i` (the source does
not add `begin`). -/
def SliceObj.set {V : Type} (s : SliceObj V) (i : Nat) (val : V) :
    Except String (SliceObj V) :=
  (s.array.set i val).map (fun a => { s with array := a })

/-- An `isize` cast to `usize` (bit reinterpretation, i.e. the value modulo
2^64 on a 64-bit target). -/
def usizeOfInt (i : Int) : Nat := (i % (2 ^ 64 : Nat)).toNat

/-- Wrapping `usize` addition (wrapping, as in a release build). -/
def usizeAdd (a b : Nat) : Nat := (a + b) % 2 ^ 64

/-- Function `SliceObj::check_indices` from objects.rs: translates the requested
`begin`/`end` into absolute indices by adding `this_begin` (with `end`
taken modulo `this_len + 1`, so that `-1` denotes the length), while `max`
is taken as the new `cap_end` without translation; each violation is an
index-out-of-range runtime error. `%` on `isize` is Rust's truncated
remainder. -/
def SliceObj.check_indices (this_begin this_len this_cap : Nat)
    (begin «end» max : Int) : Except String (Nat × Nat × Nat) :=
  let bi := usizeAdd this_begin (usizeOfInt begin)
  if bi > this_cap then .error s!"index {begin} out of range"
  else
    let this_len_p1 : Int := (this_len : Int) + 1
    let e := «end»
    let ei := usizeAdd this_begin (usizeOfInt ((this_len_p1 + e).tmod this_len_p1))
    if ei < bi then .error s!"index {e} out of range"
    else
      let cap := if max < 0 then this_cap else usizeOfInt max
      if cap > this_cap then .error s!"index {max} out of range"
      else .ok (bi, ei, cap)

/-- Function `SliceObj::slice` from objects.rs: re-slicing shares the backing array
and installs the indices computed by `check_indices` from the slice's own
`begin`, `len` and `cap_end`. -/
def SliceObj.slice {V : Type} (s : SliceObj V) (begin «end» max : Int) :
    Except String (SliceObj V) :=
  (SliceObj.check_indices s.begin s.len s.cap_end begin «end» max).map
    (fun r => ⟨s.array, r.1, r.2.1, r.2.2⟩)

/-! ### TYPE_ASSERT (src/vm/src/vm.rs, lines 1011–1028) -/

/-- Observable outcome of one `TYPE_ASSERT` dispatch: the underlying value
pushed (non-try), the underlying value and the success flag pushed (try),
or the `unimplemented!()` host panic that aborts the whole VM process. -/
inductive AssertOutcome (V : Type) where
  | pushed (v : V)
  | pushedWithFlag (v : V) (ok : Bool)
  | hostAbort
  deriving DecidableEq, Repr

/-- Opcode `TYPE_ASSERT` from vm.rs: the underlying value of the popped
interface is pushed, `ok` compares the asserted metadata constant with the
value's metadata; the try variant additionally pushes `ok`, while the
non-try variant on failure reaches `unimplemented!()` (a host panic, not a
VM runtime error). -/
def type_assert {V : Type} (val : V) (val_meta asserted_meta : Nat)
    (do_try : Bool) : AssertOutcome V :=
  let ok := asserted_meta == val_meta
  if !do_try then
    if !ok then .hostAbort else .pushed val
  else
    .pushedWithFlag val ok

/-! ### String ⇄ byte-slice CAST (src/vm/src/vm.rs, `Opcode::CAST`)

A Rust `String` is a sequence of `char`s, i.e. Unicode scalar values; its
`bytes()` iterator yields the UTF-8 encoding, and `str::from_utf8` accepts
exactly the valid UTF-8 byte sequences. Strings are modelled as lists of
scalar values and byte buffers as lists of bytes. -/

/-- A Unicode scalar value: a code point below 0x110000 that is not a
UTF-16 surrogate — exactly the values a Rust `char` can hold. -/
def ValidScalar (c : Nat) : Prop := c < 0xD800 ∨ (0xE000 ≤ c ∧ c < 0x110000)

instance (c : Nat) : Decidable (ValidScalar c) := by
  unfold ValidScalar; infer_instance

/-- UTF-8 encoding of one scalar value (`char::encode_utf8`): one to four
bytes by range. -/
def utf8EncodeChar (c : Nat) : List Nat :=
  if c < 0x80 then [c]
  else if c < 0x800 then [0xC0 + c / 64, 0x80 + c % 64]
  else if c < 0x10000 then
    [0xE0 + c / 4096, 0x80 + c / 64 % 64, 0x80 + c % 64]
  else
    [0xF0 + c / 262144, 0x80 + c / 4096 % 64, 0x80 + c / 64 % 64,
     0x80 + c % 64]

/-- UTF-8 encoding of a string, as produced by `str::bytes()` and by the
`ValueType::Slice`/`Uint8` arm of `Opcode::CAST`. -/
def utf8Encode (cs : List Nat) : List Nat := (cs.map utf8EncodeChar).flatten

/-- A UTF-8 continuation byte: `0x80 ≤ b < 0xC0`. -/
def isCont (b : Nat) : Bool := decide (0x80 ≤ b) && decide (b < 0xC0)

/-- Strict UTF-8 decoding of one scalar value from the front of a byte
list, as `str::from_utf8` validates it: continuation bytes are checked and
overlong encodings, surrogates and values above 0x10FFFF are rejected. -/
def utf8DecodeChar : List Nat → Option (Nat × List Nat)
  | [] => none
  | b0 :: rest =>
    if b0 < 0x80 then some (b0, rest)
    else if b0 < 0xC0 then none
    else if b0 < 0xE0 then
      match rest with
      | b1 :: r1 =>
        if isCont b1 then
          if (b0 - 0xC0) * 64 + (b1 - 0x80) < 0x80 then none
          else some ((b0 - 0xC0) * 64 + (b1 - 0x80), r1)
        else none
      | _ => none
    else if b0 < 0xF0 then
      match rest with
      | b1 :: b2 :: r2 =>
        if isCont b1 && isCont b2 then
          if (b0 - 0xE0) * 4096 + (b1 - 0x80) * 64 + (b2 - 0x80) < 0x800 then
            none
          else if 0xD800 ≤ (b0 - 0xE0) * 4096 + (b1 - 0x80) * 64 + (b2 - 0x80) ∧
              (b0 - 0xE0) * 4096 + (b1 - 0x80) * 64 + (b2 - 0x80) < 0xE000 then
            none
          else some ((b0 - 0xE0) * 4096 + (b1 - 0x80) * 64 + (b2 - 0x80), r2)
        else none
      | _ => none
    else if b0 < 0xF8 then
      match rest with
      | b1 :: b2 :: b3 :: r3 =>
        if isCont b1 && isCont b2 && isCont b3 then
          if (b0 - 0xF0) * 262144 + (b1 - 0x80) * 4096 +
              (b2 - 0x80) * 64 + (b3 - 0x80) < 0x10000 then
            none
          else if 0x110000 ≤ (b0 - 0xF0) * 262144 + (b1 - 0x80) * 4096 +
              (b2 - 0x80) * 64 + (b3 - 0x80) then
            none
          else some ((b0 - 0xF0) * 262144 + (b1 - 0x80) * 4096 +
            (b2 - 0x80) * 64 + (b3 - 0x80), r3)
        else none
      | _ => none
    else none

set_option maxRecDepth 4000 in
theorem utf8DecodeChar_length_lt {l : List Nat} {c : Nat} {rest : List Nat}
    (h : utf8DecodeChar l = some (c, rest)) : rest.length < l.length := by
  match l with
  | [] => simp [utf8DecodeChar] at h
  | b0 :: t =>
    unfold utf8DecodeChar at h
    repeat' split at h
    all_goals try cases h
    all_goals simp_all
    all_goals omega

/-- Strict UTF-8 decoding of a whole byte list (`str::from_utf8`): `none`
exactly on invalid UTF-8. -/
def utf8Decode (l : List Nat) : Option (List Nat) :=
  match h : utf8DecodeChar l with
  | none => if l.isEmpty then some [] else none
  | some (c, rest) =>
    match utf8Decode rest with
    | none => none
    | some cs => some (c :: cs)
  termination_by l.length
  decreasing_by exact utf8DecodeChar_length_lt h

/-- The `ValueType::Slice`/`Uint8` arm of `Opcode::CAST` (string to byte
slice): the string's UTF-8 bytes, each pushed as a `Uint8` element of a
fresh slice. -/
def cast_string_to_uint8_slice (s : List Nat) : List Nat := utf8Encode s

/-- Observable outcome of the `ValueType::Str`/`Uint8` arm of
`Opcode::CAST`. -/
inductive CastOutcome where
  | ok (s : List Nat)
  | hostAbort
  deriving DecidableEq, Repr

/-- The `ValueType::Str`/`Uint8` arm of `Opcode::CAST` (byte slice to
string): the bytes are collected and passed to `str::from_utf8(..)`;
the result is `unwrap()`ped (the source marks this "todo: error handling"),
so invalid UTF-8 is a host panic that aborts the whole VM rather than a VM
runtime error. -/
def cast_uint8_slice_to_string (bytes : List Nat) : CastOutcome :=
  match utf8Decode bytes with
  | some s => .ok s
  | none => .hostAbort

/-! ### Claim theorems -/

/-- C1: A rendezvous send completes only when a receiver is already
pending: `try_send` would-block (`Full`) in the `NotReady` and `InPlace`
states leaving the state unchanged, deposits the value only in the `Ready`
state (which is entered by a receiver's `try_recv` on `NotReady`), so no
value is ever buffered before a receiver waits; the awaiting send loop
yields on would-block and completes exactly on the `Ready` handshake. -/
theorem rendezvous_send_handshake {V : Type} (v w : V) :
    Channel.try_send (.Rendezvous .NotReady) v
      = (.error (.Full v), .Rendezvous .NotReady) ∧
    Channel.try_send (.Rendezvous (.InPlace w)) v
      = (.error (.Full v), .Rendezvous (.InPlace w)) ∧
    Channel.try_send (.Rendezvous .Ready) v
      = (.ok (), .Rendezvous (.InPlace v)) ∧
    Channel.try_recv (V := V) (.Rendezvous .NotReady)
      = (.error .Empty, .Rendezvous .Ready) ∧
    Channel.send_step (.Rendezvous .NotReady) v
      = (.yield, .Rendezvous .NotReady) ∧
    Channel.send_step (.Rendezvous (.InPlace w)) v
      = (.yield, .Rendezvous (.InPlace w)) ∧
    Channel.send_step (.Rendezvous .Ready) v
      = (.done, .Rendezvous (.InPlace v)) :=
  ⟨rfl, rfl, rfl, rfl, rfl, rfl, rfl⟩

/-- C3 (code bug): `SliceObj::set` stores at backing-array index `i` while
`SliceObj::get` reads backing-array index `begin + i`; on a slice with
`begin = 1` over `[10, 20]`, storing `99` at slice index `0` overwrites
array element `0`, and loading slice index `0` afterwards still yields
`20`, not `99`. -/
theorem slice_set_get_mismatch :
    (SliceObj.set ⟨⟨[10, 20]⟩, 1, 2, 2⟩ 0 99
      = .ok (⟨⟨[99, 20]⟩, 1, 2, 2⟩ : SliceObj Nat)) ∧
    (SliceObj.get (⟨⟨[99, 20]⟩, 1, 2, 2⟩ : SliceObj Nat) 0 = .ok 20) ∧
    ((.ok 20 : Except String Nat) ≠ .ok 99) := by
  refine ⟨rfl, rfl, by simp⟩

/-- C4 (code bug): `check_indices` translates `begin` and `end` by the
slice's own `begin` but installs `max` untranslated as the new `cap_end`;
for the slice `(begin 1, end 2, cap_end 3)` over `[10, 20, 30]` (so
`len = 1`, `cap = 2`), the full re-slice `slice(s, 0, len, cap)` succeeds
but returns `cap_end = 2` instead of `3`, so it is not the identity. -/
theorem identity_slice_changes_cap_end :
    (SliceObj.len (⟨⟨[10, 20, 30]⟩, 1, 2, 3⟩ : SliceObj Nat) = 1) ∧
    (SliceObj.cap (⟨⟨[10, 20, 30]⟩, 1, 2, 3⟩ : SliceObj Nat) = 2) ∧
    (SliceObj.slice (⟨⟨[10, 20, 30]⟩, 1, 2, 3⟩ : SliceObj Nat) 0 1 2
      = .ok ⟨⟨[10, 20, 30]⟩, 1, 2, 2⟩) ∧
    ((⟨⟨[10, 20, 30]⟩, 1, 2, 2⟩ : SliceObj Nat)
      ≠ ⟨⟨[10, 20, 30]⟩, 1, 2, 3⟩) := by
  refine ⟨rfl, rfl, rfl, by decide⟩

/-- C5 (code bug): `SliceObj::get` bounds-checks `begin + i` against the
backing array's length, not the slice's `len`; on the slice
`(begin 0, end 1, cap_end 3)` over `[10, 20, 30]` (so `len = 1`), loading
index `2` succeeds with the backing element `30` instead of raising the
index-out-of-range failure the claim requires — while `ArrayObj::get` does
fail for an array index at its length. -/
theorem slice_get_beyond_len_no_failure :
    (SliceObj.len (⟨⟨[10, 20, 30]⟩, 0, 1, 3⟩ : SliceObj Nat) = 1) ∧
    (SliceObj.get (⟨⟨[10, 20, 30]⟩, 0, 1, 3⟩ : SliceObj Nat) 2 = .ok 30) ∧
    (ArrayObj.get (⟨[10, 20, 30]⟩ : ArrayObj Nat) 3
      = .error "index 3 out of range") := by
  refine ⟨rfl, rfl, rfl⟩

/-- C8 (code bug): `TYPE_ASSERT` pushes the underlying value, and the try
variant additionally pushes the success boolean; but when the assertion
fails in the non-try variant, the dispatcher reaches `unimplemented!()` — a
host panic aborting the whole VM — instead of raising a VM runtime failure
along the panic path. -/
theorem type_assert_nontry_failure_aborts :
    (type_assert (42 : Nat) 1 1 false = .pushed 42) ∧
    (type_assert (42 : Nat) 1 1 true = .pushedWithFlag 42 true) ∧
    (type_assert (42 : Nat) 1 2 true = .pushedWithFlag 42 false) ∧
    (type_assert (42 : Nat) 1 2 false = .hostAbort) := by
  decide

theorem foldl_close_get_notin {V : Type} (ws : List Nat) (val : V)
    (h : UvHeap V) (w : Nat) (hnot : w ∉ ws) :
    (ws.foldl (fun h' w' => close_if_alive h' w' val) h) w = h w := by
  induction ws generalizing h with
  | nil => rfl
  | cons a ws ih =>
    have ha : w ≠ a := fun he => hnot (he ▸ List.mem_cons_self a ws)
    have hrest : w ∉ ws := fun hm => hnot (List.mem_cons_of_mem a hm)
    rw [List.foldl_cons, ih _ hrest]
    simp [close_if_alive, ha]

theorem foldl_close_get {V : Type} (ws : List Nat) (val : V) (h : UvHeap V)
    (w : Nat) (st : UpValueState V) (hw : h w = some st) :
    (ws.foldl (fun h' w' => close_if_alive h' w' val) h) w
      = some (if w ∈ ws then .Closed val else st) := by
  induction ws generalizing h st with
  | nil => simpa using hw
  | cons a ws ih =>
    rw [List.foldl_cons]
    by_cases hwa : w = a
    · subst hwa
      have h1 : close_if_alive h w val w = some (.Closed val) := by
        simp [close_if_alive, hw]
      by_cases hmem : w ∈ ws
      · rw [ih _ _ h1]; simp [hmem]
      · rw [foldl_close_get_notin _ _ _ _ hmem, h1]; simp
    · have h1 : close_if_alive h a val w = some st := by
        simp [close_if_alive, hwa, hw]
      rw [ih _ _ h1]
      simp [List.mem_cons, hwa]

theorem close_frame_cons {V : Type} (stack : Nat → V) (sb : Nat)
    (e : Int × Referers) (rest : List (Int × Referers)) (heap : UvHeap V) :
    close_frame_upvalues stack sb (e :: rest) heap
      = close_frame_upvalues stack sb rest
          (if e.2.weaks.length = 0 then heap
           else e.2.weaks.foldl
             (fun h' w => close_if_alive h' w (stack (Stack.offset sb e.1)))
             heap) := rfl

theorem close_frame_entry_untouched {V : Type} (stack : Nat → V) (sb : Nat)
    (entries : List (Int × Referers)) (heap : UvHeap V) (w : Nat)
    (hnot : ∀ e ∈ entries, w ∉ e.2.weaks) :
    close_frame_upvalues stack sb entries heap w = heap w := by
  induction entries generalizing heap with
  | nil => rfl
  | cons e rest ih =>
    have he : w ∉ e.2.weaks := hnot e (List.mem_cons_self e rest)
    have hr : ∀ x ∈ rest, w ∉ x.2.weaks :=
      fun x hx => hnot x (List.mem_cons_of_mem e hx)
    rw [close_frame_cons, ih _ hr]
    by_cases hz : e.2.weaks.length = 0
    · simp [hz]
    · simp only [hz, if_false]
      exact foldl_close_get_notin _ _ _ _ he

theorem close_frame_closed_stays {V : Type} (stack : Nat → V) (sb : Nat)
    (entries : List (Int × Referers)) (heap : UvHeap V) (w : Nat) (val : V)
    (hval : ∀ e ∈ entries, w ∈ e.2.weaks → stack (Stack.offset sb e.1) = val)
    (hw : heap w = some (.Closed val)) :
    close_frame_upvalues stack sb entries heap w = some (.Closed val) := by
  induction entries generalizing heap with
  | nil => exact hw
  | cons e rest ih =>
    have hr : ∀ x ∈ rest, w ∈ x.2.weaks → stack (Stack.offset sb x.1) = val :=
      fun x hx => hval x (List.mem_cons_of_mem e hx)
    rw [close_frame_cons]
    by_cases hz : e.2.weaks.length = 0
    · rw [if_pos hz]
      exact ih _ hr hw
    · rw [if_neg hz]
      apply ih _ hr
      by_cases hmem : w ∈ e.2.weaks
      · rw [foldl_close_get _ _ _ _ _ hw]
        rw [hval e (List.mem_cons_self e rest) hmem]
        simp [hmem]
      · rw [foldl_close_get_notin _ _ _ _ hmem]; exact hw

/-- C2: the RETURN prologue (`close_frame_upvalues`) closes every
still-upgradeable up-value registered in the frame's `referred_by` map over
the current stack value of its local: afterwards the up-value's cell holds
`Closed` of the value read at `stack_base + index`, and in particular it is
no longer `Open`. The uniqueness hypothesis reflects that `referred_by` is
a hash map keyed by local index and that each up-value is registered under
the single local it captures. -/
theorem return_closes_referred_upvalues {V : Type} (stack : Nat → V)
    (sb : Nat) (referred : List (Int × Referers)) (heap : UvHeap V)
    (ind : Int) (refs : Referers) (w : Nat) (st : UpValueState V)
    (hmem : (ind, refs) ∈ referred) (hw : w ∈ refs.weaks)
    (halive : heap w = some st)
    (huniq : ∀ e ∈ referred, w ∈ e.2.weaks → e = (ind, refs)) :
    close_frame_upvalues stack sb referred heap w
      = some (.Closed (stack (Stack.offset sb ind))) ∧
    ∀ d, close_frame_upvalues stack sb referred heap w ≠ some (.Open d) := by
  have main : close_frame_upvalues stack sb referred heap w
      = some (.Closed (stack (Stack.offset sb ind))) := by
    induction referred generalizing heap with
    | nil => cases hmem
    | cons e rest ih =>
      rw [close_frame_cons]
      by_cases hecase : e = (ind, refs)
      · have hw' : w ∈ e.2.weaks := by rw [hecase]; exact hw
        have hz : ¬ e.2.weaks.length = 0 := by
          intro h0
          rw [List.length_eq_zero] at h0
          rw [h0] at hw'
          cases hw'
        rw [if_neg hz]
        apply close_frame_closed_stays stack sb rest _ w _
          (fun x hx hwx => by
            rw [huniq x (List.mem_cons_of_mem e hx) hwx])
        rw [foldl_close_get _ _ _ _ _ halive]
        rw [if_pos hw']
        rw [hecase]
      · have hnot : w ∉ e.2.weaks := by
          intro hin
          exact hecase (huniq e (List.mem_cons_self e rest) hin)
        have hmem' : (ind, refs) ∈ rest := by
          cases hmem with
          | head => exact absurd rfl hecase
          | tail _ h => exact h
        have huniq' : ∀ x ∈ rest, w ∈ x.2.weaks → x = (ind, refs) :=
          fun x hx => huniq x (List.mem_cons_of_mem e hx)
        by_cases hz : e.2.weaks.length = 0
        · rw [if_pos hz]
          exact ih _ hmem' halive huniq'
        · rw [if_neg hz]
          apply ih _ hmem' _ huniq'
          rw [foldl_close_get_notin _ _ _ _ hnot]
          exact halive
  refine ⟨main, fun d hopen => ?_⟩
  rw [main] at hopen
  cases hopen

/-- Witness for C2: a frame with one referred local (index 2, stack value
7) and one live up-value (id 5, initially open) — after the prologue the
cell is closed over 7. -/
theorem return_closes_referred_upvalues_witness :
    ((2, ⟨0, [5]⟩) ∈ ([((2 : Int), (⟨0, [5]⟩ : Referers))]) ∧
     (5 : Nat) ∈ ([5] : List Nat)) ∧
    close_frame_upvalues (fun i => i + 5) 0 [((2 : Int), ⟨0, [5]⟩)]
      (fun x => if x = 5 then some (.Open ⟨0, 2, 0, 0⟩) else none) 5
      = some (.Closed 7) :=
  ⟨⟨List.mem_cons_self _ _, List.mem_cons_self _ _⟩,
    (return_closes_referred_upvalues (fun i => i + 5) 0 _ _ 2 ⟨0, [5]⟩ 5
      (.Open ⟨0, 2, 0, 0⟩) (List.mem_cons_self _ _) (List.mem_cons_self _ _)
      rfl (by decide)).1⟩

/-- C7: sending on a closed channel is the "channel closed!" runtime
failure: `try_send` and the awaiting-send step report closed and leave the
channel unchanged, for the rendezvous and (spec-modelled) bounded variants
alike, and a selector send case on a closed channel propagates the error
with the channel store unchanged. -/
theorem closed_channel_send_fails {V : Type} (v : V) (b : BoundedChan V)
    (d : Option Int) (n : Nat) (hb : b.closed = true) :
    Channel.try_send (.Rendezvous .Closed) v
      = (.error (.Closed v), .Rendezvous .Closed) ∧
    Channel.send_step (.Rendezvous .Closed) v
      = (.errClosed, .Rendezvous .Closed) ∧
    Channel.try_send (.Bounded b) v = (.error (.Closed v), .Bounded b) ∧
    Channel.send_step (.Bounded b) v = (.errClosed, .Bounded b) ∧
    Selector.select_pass ⟨[⟨.send v, 0⟩], d⟩ n [Channel.Rendezvous .Closed]
      = ((.err "channel closed!", [Channel.Rendezvous .Closed]), n + 1) ∧
    Selector.select_pass ⟨[⟨.send v, 0⟩], d⟩ n [Channel.Bounded b]
      = ((.err "channel closed!", [Channel.Bounded b]), n + 1) := by
  refine ⟨rfl, rfl, ?_, ?_, ?_, ?_⟩
  · simp [Channel.try_send, BoundedChan.try_send, hb]
  · simp [Channel.send_step, Channel.try_send, BoundedChan.try_send, hb]
  · simp [Selector.select_pass, Selector.select_loop, select_case_try,
      Channel.try_send, Nat.mod_one]
  · simp [Selector.select_pass, Selector.select_loop, select_case_try,
      Channel.try_send, BoundedChan.try_send, hb, Nat.mod_one]

/-- Witness for C7 at a concrete closed bounded channel. -/
theorem closed_channel_send_fails_witness :
    (({ queue := [], cap := 1, closed := true } : BoundedChan Nat).closed
        = true) ∧
    Channel.try_send (.Bounded ⟨[], 1, true⟩) (7 : Nat)
      = (.error (.Closed 7), .Bounded ⟨[], 1, true⟩) :=
  ⟨rfl, (closed_channel_send_fails 7 ⟨[], 1, true⟩ none 0 rfl).2.2.1⟩

/-- C6 counterexample: a selector with a single receive case on a closed
channel and a default branch. The case's `try_recv` does not succeed (it
reports closed), so by the claim the default index should be returned; the
code instead reports the receive case itself as the winner. -/
theorem select_closed_recv_beats_default :
    ((Channel.try_recv (V := Nat) (.Rendezvous .Closed)).1
      = .error .Closed) ∧
    Selector.select_pass (V := Nat) ⟨[⟨.recv, 0⟩], some 0⟩ 0
        [.Rendezvous .Closed]
      = ((.caseWon 0 none, [.Rendezvous .Closed]), 1) ∧
    (SelectResult.caseWon (V := Nat) 0 none ≠ .dflt) := by
  refine ⟨rfl, ?_, by simp⟩
  simp [Selector.select_pass, Selector.select_loop, select_case_try,
    Channel.try_recv, Nat.mod_one]

theorem select_loop_eq_scan {V : Type} (sel : Selector V) (r : Nat) :
    ∀ (k i : Nat) (store : ChanStore V), sel.comms.length - i = k →
      sel.select_loop r i store
        = sel.select_scan
            ((List.range k).map (fun j => (i + j + r) % sel.comms.length))
            store := by
  intro k
  induction k with
  | zero =>
    intro i store hk
    have hi : ¬ i < sel.comms.length := by omega
    rw [Selector.select_loop]
    rw [if_neg hi]
    rfl
  | succ k ih =>
    intro i store hk
    have hi : i < sel.comms.length := by omega
    have hnext : sel.comms.length - (i + 1) = k := by omega
    have hfe : ((fun j => (i + j + r) % sel.comms.length) ∘ Nat.succ)
        = (fun j => (i + 1 + j + r) % sel.comms.length) := by
      funext j
      simp only [Function.comp_apply]
      congr 1
      omega
    have hfun : ∀ s' : ChanStore V,
        sel.select_loop r (i + 1) s'
          = sel.select_scan
              ((List.range k).map
                ((fun j => (i + j + r) % sel.comms.length) ∘ Nat.succ)) s' := by
      intro s'
      rw [hfe]
      exact ih (i + 1) s' hnext
    rw [Selector.select_loop]
    rw [if_pos hi]
    rw [List.range_succ_eq_map, List.map_cons, List.map_map]
    rw [Selector.select_scan]
    dsimp only [Nat.add_zero]
    cases hstep : select_case_try sel ((i + r) % sel.comms.length) store with
    | mk out store' =>
      cases out with
      | ret res => rfl
      | block => exact hfun store'

/-- C6 (amended): one `Selector::select` call increments the per-selector
counter and makes one pass over the cases in the rotation starting from the
old counter; the first case that completes in that order wins — a
successful `try_send` or `try_recv`, or a receive finding its channel
closed (reported with its index and no value) — a send case finding its
channel closed aborts with the channel-closed error, and when no case
completes the default branch is taken immediately when present, otherwise
the pass yields. -/
theorem select_pass_rotation_first_completion {V : Type} (sel : Selector V)
    (counter : Nat) (store : ChanStore V) :
    sel.select_pass counter store
      = (sel.select_scan (rotation sel.comms.length counter) store,
         counter + 1) := by
  unfold Selector.select_pass rotation
  rw [select_loop_eq_scan sel counter sel.comms.length 0 store (by omega)]
  have hfe : (fun j => (0 + j + counter) % sel.comms.length)
      = (fun i => (i + counter) % sel.comms.length) := by
    funext j
    congr 1
    omega
  rw [hfe]

set_option maxHeartbeats 1000000 in
set_option maxRecDepth 8000 in
theorem utf8DecodeChar_encodeChar (c : Nat) (hc : ValidScalar c)
    (rest : List Nat) :
    utf8DecodeChar (utf8EncodeChar c ++ rest) = some (c, rest) := by
  unfold ValidScalar at hc
  unfold utf8EncodeChar
  split_ifs with h1 h2 h3
  all_goals
    simp only [List.cons_append, List.nil_append, utf8DecodeChar, isCont,
      Bool.and_eq_true, decide_eq_true_eq]
  all_goals
    split_ifs <;>
      first
        | rfl
        | omega
        | (simp only [Option.some.injEq, Prod.mk.injEq, and_true]
           omega)

theorem utf8Decode_nil : utf8Decode ([] : List Nat) = some [] := by
  rw [utf8Decode]
  split
  · rfl
  · next c' rest' hsome => exact absurd hsome (by simp [utf8DecodeChar])

theorem utf8Decode_stuck {l : List Nat} (hd : utf8DecodeChar l = none)
    (hne : l.isEmpty = false) : utf8Decode l = none := by
  rw [utf8Decode]
  split
  · simp [hne]
  · next c' rest' hsome => rw [hd] at hsome; cases hsome

theorem utf8Decode_cons {l : List Nat} {c : Nat} {rest : List Nat}
    (hd : utf8DecodeChar l = some (c, rest)) :
    utf8Decode l
      = match utf8Decode rest with
        | none => none
        | some cs => some (c :: cs) := by
  rw [utf8Decode]
  split
  · next hnone => rw [hd] at hnone; cases hnone
  · next c' rest' hsome =>
    rw [hd] at hsome
    injection hsome with hp
    injection hp with hc1 hr1
    subst hc1
    subst hr1
    rfl

theorem utf8Decode_encode (cs : List Nat) (h : ∀ c ∈ cs, ValidScalar c) :
    utf8Decode (utf8Encode cs) = some cs := by
  induction cs with
  | nil => exact utf8Decode_nil
  | cons c cs ih =>
    have hc : ValidScalar c := h c (List.mem_cons_self c cs)
    have hcs : ∀ x ∈ cs, ValidScalar x :=
      fun x hx => h x (List.mem_cons_of_mem c hx)
    have henc : utf8Encode (c :: cs) = utf8EncodeChar c ++ utf8Encode cs := by
      simp [utf8Encode]
    rw [henc,
      utf8Decode_cons (utf8DecodeChar_encodeChar c hc (utf8Encode cs)),
      ih hcs]

/-- C9 (code bug): casting the byte slice `[0xFF]` (not valid UTF-8) to
string: `str::from_utf8` rejects it, and the dispatcher's `unwrap()`
(marked "todo: error handling" in the source) turns that into a host panic
aborting the whole VM, not the ordinary runtime failure the claim
requires. -/
theorem invalid_utf8_cast_aborts :
    utf8Decode [255] = none ∧
    cast_uint8_slice_to_string [255] = CastOutcome.hostAbort := by
  have h : utf8Decode [255] = none :=
    utf8Decode_stuck (by decide) rfl
  refine ⟨h, ?_⟩
  unfold cast_uint8_slice_to_string
  rw [h]

/-- C10: for a string (a sequence of Unicode scalar values), casting to a
`[]uint8` slice (UTF-8 bytes) and back to string recovers the original
content: strict UTF-8 decoding is a left inverse of encoding on scalar
values. -/
theorem string_to_bytes_to_string_id (cs : List Nat)
    (h : ∀ c ∈ cs, ValidScalar c) :
    cast_uint8_slice_to_string (cast_string_to_uint8_slice cs) = .ok cs := by
  unfold cast_uint8_slice_to_string cast_string_to_uint8_slice
  rw [utf8Decode_encode cs h]

/-- Witness for C10 on a concrete string with 1-, 2-, 3- and 4-byte code
points. -/
theorem string_to_bytes_to_string_id_witness :
    (∀ c ∈ [72, 233, 20013, 128512], ValidScalar c) ∧
    cast_uint8_slice_to_string
        (cast_string_to_uint8_slice [72, 233, 20013, 128512])
      = .ok [72, 233, 20013, 128512] :=
  ⟨by decide, string_to_bytes_to_string_id _ (by decide)⟩

end Goscript
